import Mathlib

/-!
# Verification of the counseling-chatbot core (`app.py`)

Shallow embedding of the repository's single source file `src/app.py`:
the request-assembly and retry loop of `call_gemini_with_retry`
(window selection, error classification, exponential backoff) and the
CSV export of the session log.  Remote-call outcomes are modelled as an
oracle `Nat → CallOutcome` giving the result of each attempt; UI side
effects (`st.warning`, `st.error`, `time.sleep`) are recorded as traces
in the run result.
-/

/-- Substring test on character lists: `isPrefixL n l` holds when `n`
is an initial segment of `l`. -/
def isPrefixL : List Char → List Char → Bool
  | [], _ => true
  | _ :: _, [] => false
  | a :: as, b :: bs => if a = b then isPrefixL as bs else false

/-- `hasInfixL n l` holds when `n` occurs contiguously inside `l`. -/
def hasInfixL (needle : List Char) : List Char → Bool
  | [] => isPrefixL needle []
  | c :: rest => isPrefixL needle (c :: rest) || hasInfixL needle rest

/-- Python's `needle in hay` on strings. -/
def strContains (needle hay : String) : Bool :=
  hasInfixL needle.data hay.data

/-- Outcome of one remote `generate_content` attempt: success with the
response text, an `APIError` carrying `str(e)`, or any other exception
carrying `str(e)`. -/
inductive CallOutcome where
  | success (text : String)
  | apiError (msg : String)
  | otherError (msg : String)
deriving DecidableEq, Repr

/-- An entry of `st.session_state['history']`: a Python dict that may or
may not carry the `'role'` and `'text'` keys. -/
structure HistMsg where
  role? : Option String
  text? : Option String
deriving DecidableEq, Repr

/-- A well-formed transcript turn (the data model's Turn: both keys present). -/
structure Turn where
  role : String
  text : String
deriving DecidableEq, Repr

/-- View a well-formed turn as a history entry. -/
def Turn.toMsg (t : Turn) : HistMsg :=
  ⟨some t.role, some t.text⟩

/-- A `types.Content(role=…, parts=[types.Part(text=…)])` value of the
assembled request. -/
structure Content where
  role : String
  parts : List String
deriving DecidableEq, Repr

/-- Request assembly of `call_gemini_with_retry` (app.py lines 57-76):
take the last 12 history entries, keep those having both `'role'` and
`'text'` keys, and append the current user prompt as a final
user-role content. -/
def buildContents (history : List HistMsg) (prompt : String) : List Content :=
  let recent := history.drop (history.length - 12)
  let contents := recent.foldl
    (fun acc msg =>
      match msg.role?, msg.text? with
      | some r, some t => acc ++ [⟨r, [t]⟩]
      | _, _ => acc)
    ([] : List Content)
  contents ++ [⟨"user", [prompt]⟩]

/-- Fallback returned from the `APIError` handler (app.py line 94),
for non-retryable errors and for the last failing 429 attempt alike. -/
def genericAPIErrorFallback : String :=
  "죄송합니다. 현재 상담 서버에 오류가 발생하여 응답을 드릴 수 없습니다."

/-- Fallback returned from the generic `Exception` handler (app.py line 99). -/
def unexpectedErrorFallback : String :=
  "죄송합니다. 처리 중 예기치 않은 오류가 발생했습니다."

/-- The string of the `return` after the loop (app.py line 100). -/
def finalFailureFallback : String :=
  "API 호출에 최종 실패했습니다. 나중에 다시 시도해 주세요."

/-- The `st.warning` text emitted before a 429 retry (app.py line 90). -/
def warn429 (attempt : Nat) : String :=
  "API 호출 제한(429) 발생. " ++ toString (attempt + 1) ++ "회차 재시도 중..."

/-- The `st.error` text of the `APIError` handler (app.py line 93). -/
def apiErrorBanner (msg : String) : String :=
  "Gemini API 호출 오류: " ++ msg

/-- The first `st.error` text of the generic handler (app.py line 96);
the follow-up traceback banner is abstracted away. -/
def unexpectedBanner (msg : String) : String :=
  "예기치 않은 오류 발생: " ++ msg

/-- Which `return` statement ended the call. -/
inductive ExitKind where
  /-- `return response.text` inside the loop (line 87). -/
  | success
  /-- `return` in the `APIError` handler (line 94). -/
  | apiFallback
  /-- `return` in the generic `Exception` handler (line 99). -/
  | unexpectedFallback
  /-- the `return` after the loop (line 100). -/
  | fellThrough
deriving DecidableEq, Repr

/-- Observable result of one `call_gemini_with_retry` run: the returned
string, the number of attempts made, the trace of `time.sleep`
durations, the `st.warning` trace and the `st.error` trace. -/
structure RunResult where
  result : String
  attempts : Nat
  sleeps : List Nat
  warnings : List String
  errors : List String
  exit : ExitKind
deriving DecidableEq, Repr

/-- The `for attempt in range(max_retries)` loop of app.py lines 78-100.
`fuel` counts the iterations left (`max_retries - attempt`); running out
of fuel is falling off the loop onto line 100. -/
def retryAux (o : Nat → CallOutcome) (mr : Nat) :
    Nat → Nat → List Nat → List String → RunResult
  | 0, attempt, sleeps, warns =>
      { result := finalFailureFallback, attempts := attempt, sleeps := sleeps,
        warnings := warns, errors := [], exit := .fellThrough }
  | fuel + 1, attempt, sleeps, warns =>
      match o attempt with
      | .success t =>
          { result := t, attempts := attempt + 1, sleeps := sleeps,
            warnings := warns, errors := [], exit := .success }
      | .apiError m =>
          if strContains "429" m ∧ attempt < mr - 1 then
            retryAux o mr fuel (attempt + 1)
              (sleeps ++ [2 ^ attempt]) (warns ++ [warn429 attempt])
          else
            { result := genericAPIErrorFallback, attempts := attempt + 1,
              sleeps := sleeps, warnings := warns,
              errors := [apiErrorBanner m], exit := .apiFallback }
      | .otherError m =>
          { result := unexpectedErrorFallback, attempts := attempt + 1,
            sleeps := sleeps, warnings := warns,
            errors := [unexpectedBanner m], exit := .unexpectedFallback }

/-- The retry loop started at attempt 0 with empty traces. -/
def runRetry (o : Nat → CallOutcome) (mr : Nat) : RunResult :=
  retryAux o mr mr 0 [] []

/-- `call_gemini_with_retry(client, model_name, prompt, max_retries)`:
assembles the request from the history window and the prompt, then runs
the retry loop against the outcome oracle `o`.  Returns the assembled
request together with the observable run result. -/
def call_gemini_with_retry (history : List HistMsg) (prompt : String)
    (o : Nat → CallOutcome) (mr : Nat) : List Content × RunResult :=
  (buildContents history prompt, runRetry o mr)

/-- An outcome is a rate-limit failure: an `APIError` whose text
contains `'429'`. -/
def is429 : CallOutcome → Bool
  | .apiError m => strContains "429" m
  | _ => false

example : is429 (.apiError "429 RESOURCE_EXHAUSTED") = true := by decide
example : is429 (.apiError "503 unavailable") = false := by decide
example : (runRetry (fun _ => .apiError "error 429") 3).sleeps = [1, 2] := by decide
example : (runRetry (fun _ => .apiError "error 429") 3).result
    = genericAPIErrorFallback := by decide
example : (runRetry (fun _ => .apiError "503 x") 3).attempts = 1 := by decide

/-! ## Retry-loop lemmas -/

/-- While every outcome is a 429 `APIError` and a later attempt remains,
each iteration sleeps `2 ^ attempt` seconds, warns, and moves on to the
next attempt. -/
theorem retryAux_skip429 (o : Nat → CallOutcome) (mr n : Nat) :
    ∀ (fuel attempt : Nat) (sleeps : List Nat) (warns : List String),
      (∀ i, i < n → is429 (o (attempt + i)) = true) →
      attempt + n < mr → n ≤ fuel →
      retryAux o mr fuel attempt sleeps warns =
        retryAux o mr (fuel - n) (attempt + n)
          (sleeps ++ (List.range' attempt n).map (fun i => 2 ^ i))
          (warns ++ (List.range' attempt n).map warn429) := by
  induction n with
  | zero =>
    intro fuel attempt sleeps warns _ _ _
    simp
  | succ n ih =>
    intro fuel attempt sleeps warns h429 hlt hfuel
    obtain ⟨f, rfl⟩ : ∃ f, fuel = f + 1 := ⟨fuel - 1, by omega⟩
    have h0 : is429 (o attempt) = true := by simpa using h429 0 (by omega)
    obtain ⟨m, hm, hc⟩ : ∃ m, o attempt = .apiError m ∧ strContains "429" m = true := by
      cases ho : o attempt with
      | success t => rw [ho] at h0; simp [is429] at h0
      | apiError m => exact ⟨m, rfl, by rw [ho] at h0; simpa [is429] using h0⟩
      | otherError m => rw [ho] at h0; simp [is429] at h0
    have hguard : attempt < mr - 1 := by omega
    have step : retryAux o mr (f + 1) attempt sleeps warns =
        retryAux o mr f (attempt + 1) (sleeps ++ [2 ^ attempt])
          (warns ++ [warn429 attempt]) := by
      simp [retryAux, hm, hc, hguard]
    rw [step]
    have hrec := ih f (attempt + 1) (sleeps ++ [2 ^ attempt]) (warns ++ [warn429 attempt])
      (fun i hi => by
        have h := h429 (i + 1) (by omega)
        rwa [show attempt + (i + 1) = attempt + 1 + i from by omega] at h)
      (by omega) (by omega)
    rw [hrec]
    have harith1 : f - n = f + 1 - (n + 1) := by omega
    have harith2 : attempt + 1 + n = attempt + (n + 1) := by omega
    rw [harith1, harith2, List.range'_succ]
    simp

/-- When every attempt fails with a 429 `APIError`, the run makes
exactly `mr` attempts, sleeps `2 ^ i` seconds after each of the first
`mr - 1` of them, and returns the generic `APIError` fallback from
inside the loop. -/
theorem runRetry_all429 (o : Nat → CallOutcome) (mr : Nat) (h1 : 1 ≤ mr)
    (h2 : ∀ i, i < mr → is429 (o i) = true) :
    (runRetry o mr).result = genericAPIErrorFallback ∧
    (runRetry o mr).attempts = mr ∧
    (runRetry o mr).sleeps = (List.range (mr - 1)).map (fun i => 2 ^ i) ∧
    (runRetry o mr).warnings = (List.range (mr - 1)).map warn429 ∧
    (runRetry o mr).exit = ExitKind.apiFallback := by
  have hskip := retryAux_skip429 o mr (mr - 1) mr 0 [] []
    (fun i hi => by simpa using h2 i (by omega)) (by omega) (by omega)
  have hlast : is429 (o (mr - 1)) = true := h2 (mr - 1) (by omega)
  obtain ⟨m, hm, hc⟩ : ∃ m, o (mr - 1) = .apiError m ∧ strContains "429" m = true := by
    cases ho : o (mr - 1) with
    | success t => rw [ho] at hlast; simp [is429] at hlast
    | apiError m => exact ⟨m, rfl, by rw [ho] at hlast; simpa [is429] using hlast⟩
    | otherError m => rw [ho] at hlast; simp [is429] at hlast
  have hng : ¬(mr - 1 < mr - 1) := by omega
  have hfuel : mr - (mr - 1) = 0 + 1 := by omega
  unfold runRetry
  rw [hskip, hfuel]
  simp only [Nat.zero_add, List.nil_append]
  simp [retryAux, hm, hc, hng, List.range_eq_range']
  omega

/-- When the first `k - 1` attempts fail with 429 and attempt `k`
succeeds, the run returns the success text after `k` attempts with
backoff sleeps `2 ^ 0, …, 2 ^ (k - 2)`. -/
theorem runRetry_429_then_success (o : Nat → CallOutcome) (mr k : Nat) (t : String)
    (hk1 : 1 ≤ k) (hk2 : k ≤ mr)
    (h429 : ∀ i, i < k - 1 → is429 (o i) = true)
    (hs : o (k - 1) = CallOutcome.success t) :
    runRetry o mr =
      { result := t, attempts := k,
        sleeps := (List.range (k - 1)).map (fun i => 2 ^ i),
        warnings := (List.range (k - 1)).map warn429,
        errors := [], exit := ExitKind.success } := by
  have hskip := retryAux_skip429 o mr (k - 1) mr 0 [] []
    (fun i hi => by simpa using h429 i hi) (by omega) (by omega)
  obtain ⟨f, hf⟩ : ∃ f, mr - (k - 1) = f + 1 := ⟨mr - (k - 1) - 1, by omega⟩
  unfold runRetry
  rw [hskip, hf]
  simp only [Nat.zero_add, List.nil_append]
  simp [retryAux, hs, List.range_eq_range']
  omega

/-- When the first attempt fails with an `APIError` whose text lacks
`'429'`, the run returns the generic fallback immediately: one attempt,
no sleep, the raw error text only in the `st.error` banner. -/
theorem runRetry_first_non429 (o : Nat → CallOutcome) (mr : Nat) (m : String)
    (h1 : 1 ≤ mr) (h2 : o 0 = CallOutcome.apiError m)
    (h3 : strContains "429" m = false) :
    runRetry o mr =
      { result := genericAPIErrorFallback, attempts := 1, sleeps := [],
        warnings := [], errors := [apiErrorBanner m],
        exit := ExitKind.apiFallback } := by
  obtain ⟨f, rfl⟩ : ∃ f, mr = f + 1 := ⟨mr - 1, by omega⟩
  unfold runRetry
  simp [retryAux, h2, h3]

/-- Every run of the loop ends in one of the four `return` statements:
a success text produced by the oracle, one of the two in-loop fallback
strings, or the after-loop string. -/
theorem retryAux_result_cases (o : Nat → CallOutcome) (mr : Nat) :
    ∀ (fuel attempt : Nat) (sleeps : List Nat) (warns : List String),
      (∃ i, o i = CallOutcome.success
        ((retryAux o mr fuel attempt sleeps warns).result)) ∨
      (retryAux o mr fuel attempt sleeps warns).result = genericAPIErrorFallback ∨
      (retryAux o mr fuel attempt sleeps warns).result = unexpectedErrorFallback ∨
      (retryAux o mr fuel attempt sleeps warns).result = finalFailureFallback := by
  intro fuel
  induction fuel with
  | zero =>
    intro attempt sleeps warns
    right; right; right
    simp [retryAux]
  | succ f ih =>
    intro attempt sleeps warns
    cases ho : o attempt with
    | success t =>
      left
      exact ⟨attempt, by simp [retryAux, ho]⟩
    | apiError m =>
      by_cases hg : strContains "429" m = true ∧ attempt < mr - 1
      · have step : retryAux o mr (f + 1) attempt sleeps warns =
            retryAux o mr f (attempt + 1) (sleeps ++ [2 ^ attempt])
              (warns ++ [warn429 attempt]) := by
          simp [retryAux, ho, hg.1, hg.2]
        rw [step]
        exact ih (attempt + 1) (sleeps ++ [2 ^ attempt]) (warns ++ [warn429 attempt])
      · right; left
        have step : retryAux o mr (f + 1) attempt sleeps warns =
            { result := genericAPIErrorFallback, attempts := attempt + 1,
              sleeps := sleeps, warnings := warns,
              errors := [apiErrorBanner m], exit := ExitKind.apiFallback } := by
          simp only [retryAux, ho]
          rw [if_neg (by simpa using hg)]
        rw [step]
    | otherError m =>
      right; right; left
      simp [retryAux, ho]

/-- With the fuel accounting of the `for` loop and at least one
iteration left, the run never reaches the after-loop `return`. -/
theorem retryAux_no_fallthrough (o : Nat → CallOutcome) (mr : Nat) :
    ∀ (fuel attempt : Nat) (sleeps : List Nat) (warns : List String),
      attempt + fuel = mr → 1 ≤ fuel →
      (retryAux o mr fuel attempt sleeps warns).exit ≠ ExitKind.fellThrough := by
  intro fuel
  induction fuel with
  | zero =>
    intro attempt sleeps warns _ h
    omega
  | succ f ih =>
    intro attempt sleeps warns hacc _
    cases ho : o attempt with
    | success t => simp [retryAux, ho]
    | apiError m =>
      by_cases hg : strContains "429" m = true ∧ attempt < mr - 1
      · have step : retryAux o mr (f + 1) attempt sleeps warns =
            retryAux o mr f (attempt + 1) (sleeps ++ [2 ^ attempt])
              (warns ++ [warn429 attempt]) := by
          simp [retryAux, ho, hg.1, hg.2]
        rw [step]
        exact ih (attempt + 1) _ _ (by omega) (by omega)
      · have step : retryAux o mr (f + 1) attempt sleeps warns =
            { result := genericAPIErrorFallback, attempts := attempt + 1,
              sleeps := sleeps, warnings := warns,
              errors := [apiErrorBanner m], exit := ExitKind.apiFallback } := by
          simp only [retryAux, ho]
          rw [if_neg (by simpa using hg)]
        rw [step]
        simp
    | otherError m => simp [retryAux, ho]

/-! ## Request-assembly lemmas -/

/-- The content built from one history entry, `none` when a key is missing. -/
def msgContent? (m : HistMsg) : Option Content :=
  match m.role?, m.text? with
  | some r, some t => some ⟨r, [t]⟩
  | _, _ => none

/-- The `for msg in recent_history` loop appends exactly the contents of
the well-formed entries. -/
theorem foldl_append_filterMap (l : List HistMsg) (init : List Content) :
    l.foldl
      (fun acc msg =>
        match msg.role?, msg.text? with
        | some r, some t => acc ++ [⟨r, [t]⟩]
        | _, _ => acc)
      init
      = init ++ l.filterMap msgContent? := by
  induction l generalizing init with
  | nil => simp
  | cons m l ih =>
    rcases m with ⟨r?, t?⟩
    cases r? <;> cases t? <;> simp [ih, msgContent?]

/-- Closed form of the request assembly: well-formed entries of the
12-entry window, then the final user content. -/
theorem buildContents_eq (history : List HistMsg) (prompt : String) :
    buildContents history prompt
      = (history.drop (history.length - 12)).filterMap msgContent?
        ++ [⟨"user", [prompt]⟩] := by
  simp only [buildContents]
  rw [foldl_append_filterMap]
  simp

/-- On well-formed entries `filterMap msgContent?` is `filter` then `map`. -/
theorem filterMap_msgContent_eq (l : List HistMsg) :
    l.filterMap msgContent?
      = (l.filter (fun m => m.role?.isSome && m.text?.isSome)).map
          (fun m => Content.mk (m.role?.getD "") [m.text?.getD ""]) := by
  induction l with
  | nil => simp
  | cons m l ih =>
    rcases m with ⟨r?, t?⟩
    cases r? <;> cases t? <;> simp [msgContent?, ih]

/-! ## String-containment lemmas -/

/-- A list is a prefix of itself followed by anything. -/
theorem isPrefixL_self_append (n t : List Char) : isPrefixL n (n ++ t) = true := by
  induction n with
  | nil => simp [isPrefixL]
  | cons c cs ih => simp [isPrefixL, ih]

/-- A list occurs inside anything of the shape `pre ++ n ++ t`. -/
theorem hasInfixL_middle (n pre t : List Char) :
    hasInfixL n (pre ++ (n ++ t)) = true := by
  induction pre with
  | nil =>
    cases n with
    | nil =>
      cases t with
      | nil => simp [hasInfixL, isPrefixL]
      | cons c r => simp [hasInfixL, isPrefixL]
    | cons c r =>
      have h := isPrefixL_self_append r t
      simp [hasInfixL, isPrefixL, h]
  | cons c pre ih => simp [hasInfixL, ih]

/-- The `st.error` banner of the `APIError` handler embeds the raw error text. -/
theorem strContains_apiErrorBanner (m : String) :
    strContains m (apiErrorBanner m) = true := by
  have hdata : (apiErrorBanner m).data = ("Gemini API 호출 오류: ").data ++ (m.data ++ []) := by
    simp [apiErrorBanner]
  rw [strContains, hdata]
  exact hasInfixL_middle m.data _ []

/-- The map from a well-formed turn to its request content. -/
theorem filterMap_toMsg (ts : List Turn) :
    (ts.map Turn.toMsg).filterMap msgContent?
      = ts.map (fun t => Content.mk t.role [t.text]) := by
  induction ts with
  | nil => rfl
  | cons t ts ih => simp [msgContent?, Turn.toMsg, ih]

/-! ## Claim theorems -/

/-- C1: when the remote call fails with a 429 `APIError` on every
attempt, `call_gemini_with_retry` returns its exhaustion fallback
string after exactly `max_retries` attempts and `max_retries - 1`
sleeps; the last attempt returns the fallback from inside the loop
without sleeping. -/
theorem c1_all429_exhausts (history : List HistMsg) (prompt : String)
    (o : Nat → CallOutcome) (mr : Nat) (h1 : 1 ≤ mr)
    (h2 : ∀ i, i < mr → is429 (o i) = true) :
    ((call_gemini_with_retry history prompt o mr).2).result = genericAPIErrorFallback ∧
    ((call_gemini_with_retry history prompt o mr).2).attempts = mr ∧
    ((call_gemini_with_retry history prompt o mr).2).sleeps
      = (List.range (mr - 1)).map (fun i => 2 ^ i) ∧
    ((call_gemini_with_retry history prompt o mr).2).exit = ExitKind.apiFallback := by
  have h := runRetry_all429 o mr h1 h2
  exact ⟨h.1, h.2.1, h.2.2.1, h.2.2.2.2⟩

/-- C1 witness: three attempts all rate-limited, two sleeps, fallback. -/
theorem c1_all429_exhausts_witness :
    ((call_gemini_with_retry [] "hi" (fun _ => CallOutcome.apiError "429 quota") 3).2).result
      = genericAPIErrorFallback ∧
    ((call_gemini_with_retry [] "hi" (fun _ => CallOutcome.apiError "429 quota") 3).2).attempts = 3 ∧
    ((call_gemini_with_retry [] "hi" (fun _ => CallOutcome.apiError "429 quota") 3).2).sleeps
      = (List.range (3 - 1)).map (fun i => 2 ^ i) ∧
    ((call_gemini_with_retry [] "hi" (fun _ => CallOutcome.apiError "429 quota") 3).2).exit
      = ExitKind.apiFallback :=
  c1_all429_exhausts [] "hi" (fun _ => CallOutcome.apiError "429 quota") 3
    (by decide) (fun i _ => rfl)

/-- C2 counterexample: with `max_retries = 3`, exhausting retries on 429
errors returns the very same string as a first-attempt non-retryable
`APIError`; the two fallback texts are not distinct. -/
theorem c2_distinct_fallbacks_cex :
    ((call_gemini_with_retry [] "hi" (fun _ => CallOutcome.apiError "429 RESOURCE_EXHAUSTED") 3).2).attempts = 3 ∧
    ((call_gemini_with_retry [] "hi" (fun _ => CallOutcome.apiError "500 Internal Server Error") 3).2).attempts = 1 ∧
    ((call_gemini_with_retry [] "hi" (fun _ => CallOutcome.apiError "429 RESOURCE_EXHAUSTED") 3).2).result
      = ((call_gemini_with_retry [] "hi" (fun _ => CallOutcome.apiError "500 Internal Server Error") 3).2).result := by
  decide

/-- C2 amended: the string returned when retries are exhausted is the
same text as the string returned for a first-attempt non-retryable
`APIError`; both are the line-94 generic fallback, and the distinct
line-100 text is never used. -/
theorem c2_same_fallback_text (hist1 : List HistMsg) (p1 : String)
    (o1 : Nat → CallOutcome) (mr1 : Nat) (hist2 : List HistMsg) (p2 : String)
    (o2 : Nat → CallOutcome) (mr2 : Nat) (m : String)
    (ha : 1 ≤ mr1) (hb : ∀ i, i < mr1 → is429 (o1 i) = true)
    (hc : 1 ≤ mr2) (hd : o2 0 = CallOutcome.apiError m)
    (he : strContains "429" m = false) :
    ((call_gemini_with_retry hist1 p1 o1 mr1).2).result
      = ((call_gemini_with_retry hist2 p2 o2 mr2).2).result := by
  have e1 := (runRetry_all429 o1 mr1 ha hb).1
  have e2 := runRetry_first_non429 o2 mr2 m hc hd he
  show (runRetry o1 mr1).result = (runRetry o2 mr2).result
  rw [e1, e2]

/-- C2 amended witness: concrete exhausted run and non-retryable run
return the same string. -/
theorem c2_same_fallback_text_witness :
    ((call_gemini_with_retry [] "a" (fun _ => CallOutcome.apiError "429 RESOURCE_EXHAUSTED") 3).2).result
      = ((call_gemini_with_retry [] "b" (fun _ => CallOutcome.apiError "500 Internal Server Error") 3).2).result :=
  c2_same_fallback_text [] "a" (fun _ => CallOutcome.apiError "429 RESOURCE_EXHAUSTED") 3
    [] "b" (fun _ => CallOutcome.apiError "500 Internal Server Error") 3
    "500 Internal Server Error"
    (by decide) (fun i _ => rfl) (by decide) rfl (by decide)

/-- C3 counterexample: a first-attempt 503 `APIError` with two attempts
remaining is not retried: zero sleeps, one attempt, immediate fallback. -/
theorem c3_unavailable_retryable_cex :
    ((call_gemini_with_retry [] "hi" (fun _ => CallOutcome.apiError "503 Service Unavailable") 3).2).sleeps = [] ∧
    ((call_gemini_with_retry [] "hi" (fun _ => CallOutcome.apiError "503 Service Unavailable") 3).2).attempts = 1 ∧
    ((call_gemini_with_retry [] "hi" (fun _ => CallOutcome.apiError "503 Service Unavailable") 3).2).result
      = genericAPIErrorFallback := by
  decide

/-- C3 amended: only failures whose error text contains `'429'` are
retried; an `APIError` without `'429'` in its text — 503 Unavailable
included — returns the generic fallback immediately, with no sleep,
even when attempts remain. -/
theorem c3_non429_immediate (history : List HistMsg) (prompt : String)
    (o : Nat → CallOutcome) (mr : Nat) (m : String) (h1 : 1 ≤ mr)
    (h2 : o 0 = CallOutcome.apiError m) (h3 : strContains "429" m = false) :
    (call_gemini_with_retry history prompt o mr).2
      = { result := genericAPIErrorFallback, attempts := 1, sleeps := [],
          warnings := [], errors := [apiErrorBanner m],
          exit := ExitKind.apiFallback } :=
  runRetry_first_non429 o mr m h1 h2 h3

/-- C3 amended witness: the 503 run evaluated concretely. -/
theorem c3_non429_immediate_witness :
    (call_gemini_with_retry [] "hi" (fun _ => CallOutcome.apiError "503 Service Unavailable") 3).2
      = { result := genericAPIErrorFallback, attempts := 1, sleeps := [],
          warnings := [], errors := [apiErrorBanner "503 Service Unavailable"],
          exit := ExitKind.apiFallback } :=
  c3_non429_immediate [] "hi" (fun _ => CallOutcome.apiError "503 Service Unavailable") 3
    "503 Service Unavailable" (by decide) rfl (by decide)

/-- C4: failing with 429 on attempts `1..k-1` and succeeding on attempt
`k ≤ max_retries` returns the success text with exactly `k - 1` sleeps
of `2 ^ i` seconds; since the code applies no cap, each sleep equals
`min (2 ^ i) cap` for every cap at least as large. -/
theorem c4_retry_then_success (history : List HistMsg) (prompt : String)
    (o : Nat → CallOutcome) (mr k : Nat) (t : String)
    (hk1 : 1 ≤ k) (hk2 : k ≤ mr)
    (h429 : ∀ i, i < k - 1 → is429 (o i) = true)
    (hs : o (k - 1) = CallOutcome.success t) :
    ((call_gemini_with_retry history prompt o mr).2).result = t ∧
    ((call_gemini_with_retry history prompt o mr).2).attempts = k ∧
    ((call_gemini_with_retry history prompt o mr).2).sleeps
      = (List.range (k - 1)).map (fun i => 2 ^ i) ∧
    ∀ cap : Nat, (∀ i, i < k - 1 → 2 ^ i ≤ cap) →
      ((call_gemini_with_retry history prompt o mr).2).sleeps
        = (List.range (k - 1)).map (fun i => min (2 ^ i) cap) := by
  have h := runRetry_429_then_success o mr k t hk1 hk2 h429 hs
  have he : (call_gemini_with_retry history prompt o mr).2 = runRetry o mr := rfl
  rw [he, h]
  refine ⟨rfl, rfl, rfl, ?_⟩
  intro cap hcap
  show (List.range (k - 1)).map (fun i => 2 ^ i) = _
  apply List.map_congr_left
  intro i hi
  have hle : 2 ^ i ≤ cap := hcap i (List.mem_range.mp hi)
  omega

/-- C4 witness: one 429, then success on the second of three attempts. -/
theorem c4_retry_then_success_witness :
    ((call_gemini_with_retry [] "hi"
        (fun i => if i = 0 then CallOutcome.apiError "429 quota" else CallOutcome.success "ok") 3).2).result
      = "ok" ∧
    ((call_gemini_with_retry [] "hi"
        (fun i => if i = 0 then CallOutcome.apiError "429 quota" else CallOutcome.success "ok") 3).2).attempts = 2 ∧
    ((call_gemini_with_retry [] "hi"
        (fun i => if i = 0 then CallOutcome.apiError "429 quota" else CallOutcome.success "ok") 3).2).sleeps
      = (List.range (2 - 1)).map (fun i => 2 ^ i) ∧
    ∀ cap : Nat, (∀ i, i < 2 - 1 → 2 ^ i ≤ cap) →
      ((call_gemini_with_retry [] "hi"
          (fun i => if i = 0 then CallOutcome.apiError "429 quota" else CallOutcome.success "ok") 3).2).sleeps
        = (List.range (2 - 1)).map (fun i => min (2 ^ i) cap) :=
  c4_retry_then_success [] "hi"
    (fun i => if i = 0 then CallOutcome.apiError "429 quota" else CallOutcome.success "ok") 3 2 "ok"
    (by decide) (by decide)
    (by intro i hi; have h0 : i = 0 := Nat.lt_one_iff.mp hi; subst h0; rfl)
    (by decide)

/-- C5 counterexample: for a first-attempt non-retryable `APIError`
with text `boom`, the returned fallback does not contain the error
text; it is the fixed generic fallback, with zero sleeps. -/
theorem c5_error_text_embedded_cex :
    ((call_gemini_with_retry [] "hi" (fun _ => CallOutcome.apiError "boom") 3).2).sleeps = [] ∧
    ((call_gemini_with_retry [] "hi" (fun _ => CallOutcome.apiError "boom") 3).2).result
      = genericAPIErrorFallback ∧
    strContains "boom"
      (((call_gemini_with_retry [] "hi" (fun _ => CallOutcome.apiError "boom") 3).2).result) = false := by
  decide

/-- C5 amended: a first-attempt non-retryable `APIError` causes zero
sleeps and returns the fixed generic fallback, which does not embed the
error text; the raw error text is embedded only in the emitted
`st.error` banner. -/
theorem c5_fixed_fallback_banner (history : List HistMsg) (prompt : String)
    (o : Nat → CallOutcome) (mr : Nat) (m : String) (h1 : 1 ≤ mr)
    (h2 : o 0 = CallOutcome.apiError m) (h3 : strContains "429" m = false) :
    ((call_gemini_with_retry history prompt o mr).2).sleeps = [] ∧
    ((call_gemini_with_retry history prompt o mr).2).result = genericAPIErrorFallback ∧
    ((call_gemini_with_retry history prompt o mr).2).errors = [apiErrorBanner m] ∧
    strContains m (apiErrorBanner m) = true := by
  have h := runRetry_first_non429 o mr m h1 h2 h3
  have he : (call_gemini_with_retry history prompt o mr).2 = runRetry o mr := rfl
  rw [he, h]
  exact ⟨rfl, rfl, rfl, strContains_apiErrorBanner m⟩

/-- C5 amended witness: the `boom` run evaluated concretely. -/
theorem c5_fixed_fallback_banner_witness :
    ((call_gemini_with_retry [] "hi" (fun _ => CallOutcome.apiError "boom") 3).2).sleeps = [] ∧
    ((call_gemini_with_retry [] "hi" (fun _ => CallOutcome.apiError "boom") 3).2).result
      = genericAPIErrorFallback ∧
    ((call_gemini_with_retry [] "hi" (fun _ => CallOutcome.apiError "boom") 3).2).errors
      = [apiErrorBanner "boom"] ∧
    strContains "boom" (apiErrorBanner "boom") = true :=
  c5_fixed_fallback_banner [] "hi" (fun _ => CallOutcome.apiError "boom") 3 "boom"
    (by decide) rfl (by decide)

/-- C6: for a transcript of well-formed turns, the assembled request is
exactly the last 12 turns in order followed by one final user content
holding the utterance. -/
theorem c6_window_last12 (ts : List Turn) (prompt : String)
    (o : Nat → CallOutcome) (mr : Nat) :
    (call_gemini_with_retry (ts.map Turn.toMsg) prompt o mr).1
      = (ts.drop (ts.length - 12)).map (fun t => Content.mk t.role [t.text])
        ++ [Content.mk "user" [prompt]] := by
  show buildContents (ts.map Turn.toMsg) prompt = _
  rw [buildContents_eq, List.length_map, ← List.map_drop, filterMap_toMsg]

/-- C7: whatever the outcomes, `call_gemini_with_retry` returns a
string: a success text produced by some attempt or one of the three
fallback constants; no failure escapes. -/
theorem c7_always_returns_string (history : List HistMsg) (prompt : String)
    (o : Nat → CallOutcome) (mr : Nat) :
    (∃ i, o i = CallOutcome.success
      (((call_gemini_with_retry history prompt o mr).2).result)) ∨
    ((call_gemini_with_retry history prompt o mr).2).result = genericAPIErrorFallback ∨
    ((call_gemini_with_retry history prompt o mr).2).result = unexpectedErrorFallback ∨
    ((call_gemini_with_retry history prompt o mr).2).result = finalFailureFallback :=
  retryAux_result_cases o mr mr 0 [] []

/-- C9: for `max_retries ≥ 1` the function always returns from inside
the loop; the `return` after the loop (line 100) is unreachable. -/
theorem c9_no_fallthrough (history : List HistMsg) (prompt : String)
    (o : Nat → CallOutcome) (mr : Nat) (h : 1 ≤ mr) :
    ((call_gemini_with_retry history prompt o mr).2).exit ≠ ExitKind.fellThrough :=
  retryAux_no_fallthrough o mr mr 0 [] [] (by omega) h

/-- C9 witness: a concrete run exits through an in-loop return. -/
theorem c9_no_fallthrough_witness :
    ((call_gemini_with_retry [] "hi" (fun _ => CallOutcome.otherError "net down") 3).2).exit
      ≠ ExitKind.fellThrough :=
  c9_no_fallthrough [] "hi" (fun _ => CallOutcome.otherError "net down") 3 (by decide)

/-- C10: whatever the history entries, the assembled request is the
well-formed entries of the 12-entry window, in order, followed by the
final user content; malformed entries are silently skipped. -/
theorem c10_malformed_skipped (history : List HistMsg) (prompt : String)
    (o : Nat → CallOutcome) (mr : Nat) :
    (call_gemini_with_retry history prompt o mr).1
      = ((history.drop (history.length - 12)).filter
            (fun m => m.role?.isSome && m.text?.isSome)).map
          (fun m => Content.mk (m.role?.getD "") [m.text?.getD ""])
        ++ [Content.mk "user" [prompt]] := by
  show buildContents history prompt = _
  rw [buildContents_eq, filterMap_msgContent_eq]

/-! ## CSV export (C8)

The export button (app.py lines 144-153) serializes
`st.session_state['csv_log']` with pandas `DataFrame.to_csv(index=False)`.
The serializer below is modelled from the spec's export interface: a
comma-separated table with header row `session_id,model,timestamp,role,message`,
one line per record, minimal quoting (a field is quoted exactly when it
contains a comma, a double quote, or a line break; inner quotes are
doubled), `\n` after every row. -/

/-- A row of `st.session_state['csv_log']` (app.py lines 193-206). -/
structure LogRecord where
  session_id : String
  model : String
  timestamp : String
  role : String
  message : String
deriving DecidableEq, Repr

/-- Modelled from the spec: a field needs quoting when it contains a
comma, a quote, or a line break (pandas minimal quoting). -/
def needsQuote : List Char → Bool
  | [] => false
  | c :: rest =>
    if c = ',' ∨ c = '"' ∨ c = '\n' ∨ c = '\r' then true else needsQuote rest

/-- Double every quote character of a field body. -/
def dqChars : List Char → List Char
  | [] => []
  | c :: rest => if c = '"' then '"' :: '"' :: dqChars rest else c :: dqChars rest

/-- Modelled from the spec: serialize one field with minimal quoting. -/
def escField (f : List Char) : List Char :=
  if needsQuote f then '"' :: (dqChars f ++ ['"']) else f

/-- Join fields with commas. -/
def joinComma : List (List Char) → List Char
  | [] => []
  | [f] => f
  | f :: g :: rest => f ++ ',' :: joinComma (g :: rest)

/-- One CSV line: comma-joined escaped fields plus the terminator. -/
def writeRow (fields : List (List Char)) : List Char :=
  joinComma (fields.map escField) ++ ['\n']

/-- Concatenation of all lines. -/
def writeTable : List (List (List Char)) → List Char
  | [] => []
  | r :: rs => writeRow r ++ writeTable rs

/-- The header row of the export (app.py log-record keys, in order). -/
def headerFields : List (List Char) :=
  ["session_id".data, "model".data, "timestamp".data, "role".data, "message".data]

/-- The five fields of one record, in header order. -/
def recordFields (r : LogRecord) : List (List Char) :=
  [r.session_id.data, r.model.data, r.timestamp.data, r.role.data, r.message.data]

/-- Modelled from the spec: export-log serialization — the header row
followed by one row per record. -/
def writeCsv (log : List LogRecord) : String :=
  String.mk (writeTable (headerFields :: log.map recordFields))

/-- Parse the body of a quoted field, the opening quote already
consumed; doubled quotes unescape, the closing quote ends the field. -/
def parseQuoted : List Char → Option (List Char × List Char)
  | [] => none
  | ['"'] => some ([], [])
  | '"' :: '"' :: rest2 => (parseQuoted rest2).map (fun p => ('"' :: p.1, p.2))
  | '"' :: c2 :: rest2 => some ([], c2 :: rest2)
  | c :: rest => (parseQuoted rest).map (fun p => (c :: p.1, p.2))

/-- Parse an unquoted field: everything up to a comma or line break. -/
def parseRaw : List Char → (List Char × List Char)
  | [] => ([], [])
  | c :: rest =>
    if c = ',' ∨ c = '\n' then ([], c :: rest)
    else
      let p := parseRaw rest
      (c :: p.1, p.2)

/-- Parse one field, quoted or raw. -/
def parseField (l : List Char) : Option (List Char × List Char) :=
  match l with
  | [] => some ([], [])
  | c :: rest => if c = '"' then parseQuoted rest else some (parseRaw (c :: rest))

/-- Parse one record: comma-separated fields ended by a line break or
the end of input.  `fuel` bounds the number of fields. -/
def parseRecordAux : Nat → List Char → Option (List (List Char) × List Char)
  | 0, _ => none
  | fuel + 1, l =>
    match parseField l with
    | none => none
    | some (f, rest) =>
      match rest with
      | [] => some ([f], [])
      | c :: rest2 =>
        if c = ',' then (parseRecordAux fuel rest2).map (fun p => (f :: p.1, p.2))
        else if c = '\n' then some ([f], rest2)
        else none

/-- Parse all records of the table.  `fuel` bounds the number of rows. -/
def parseTableAux : Nat → List Char → Option (List (List (List Char)))
  | _, [] => some []
  | 0, _ :: _ => none
  | fuel + 1, c :: rest =>
    match parseRecordAux ((c :: rest).length + 1) (c :: rest) with
    | none => none
    | some (r, rest2) => (parseTableAux fuel rest2).map (fun rs => r :: rs)

/-- Modelled from the spec: parse a string as a comma-separated table. -/
def parseTable (s : String) : Option (List (List (List Char))) :=
  parseTableAux (s.data.length + 1) s.data

/-- Rebuild a record from a five-field row. -/
def rowToRecord : List (List Char) → Option LogRecord
  | [a, b, c, d, e] =>
      some ⟨String.mk a, String.mk b, String.mk c, String.mk d, String.mk e⟩
  | _ => none

/-- Rebuild all records, failing on any malformed row. -/
def rowsToRecords : List (List (List Char)) → Option (List LogRecord)
  | [] => some []
  | r :: rs =>
    match rowToRecord r, rowsToRecords rs with
    | some x, some xs => some (x :: xs)
    | _, _ => none

/-- Modelled from the spec: parse an exported table back into records,
checking the stated header row. -/
def parseLog (s : String) : Option (List LogRecord) :=
  match parseTable s with
  | none => none
  | some [] => none
  | some (hdr :: rows) =>
    if hdr = headerFields then rowsToRecords rows else none

example :
    parseLog (writeCsv [⟨"s1", "gemini-2.5-flash", "2024-01-01 10:00:00", "user",
      "hello, \"world\"\n안녕"⟩])
      = some [⟨"s1", "gemini-2.5-flash", "2024-01-01 10:00:00", "user",
      "hello, \"world\"\n안녕"⟩] := by decide
example : parseLog (writeCsv []) = some [] := by decide
example :
    parseLog (writeCsv [⟨"a", "b", "c", "model", "plain"⟩,
      ⟨"a", "b", "c", "user", "line\r\nbreak, comma"⟩])
      = some [⟨"a", "b", "c", "model", "plain"⟩,
      ⟨"a", "b", "c", "user", "line\r\nbreak, comma"⟩] := by decide

/-- The characters that may legitimately follow a serialized field. -/
def sepStart : List Char → Bool
  | [] => true
  | c :: _ => decide (c = ',' ∨ c = '\n')

/-- A field that needs no quoting contains no comma, quote or line break. -/
theorem needsQuote_false : ∀ {f : List Char}, needsQuote f = false →
    ∀ c ∈ f, ¬(c = ',' ∨ c = '"' ∨ c = '\n' ∨ c = '\r') := by
  intro f
  induction f with
  | nil => intro _ c hc; simp at hc
  | cons a rest ih =>
    intro h c hc
    by_cases ha : a = ',' ∨ a = '"' ∨ a = '\n' ∨ a = '\r'
    · rw [needsQuote, if_pos ha] at h
      exact absurd h (by simp)
    · rw [needsQuote, if_neg ha] at h
      rcases List.mem_cons.mp hc with rfl | hmem
      · exact ha
      · exact ih h c hmem

/-- Stepping the quoted-field parser over a non-quote character. -/
theorem parseQuoted_cons_ne (c : Char) (l : List Char) (hc : ¬c = '"') :
    parseQuoted (c :: l) = (parseQuoted l).map (fun p => (c :: p.1, p.2)) := by
  match l with
  | [] => simp [parseQuoted, hc]
  | c2 :: r2 => simp [parseQuoted, hc]

/-- Stepping the quoted-field parser over an escaped quote pair. -/
theorem parseQuoted_qq (l : List Char) :
    parseQuoted ('"' :: '"' :: l)
      = (parseQuoted l).map (fun p => ('"' :: p.1, p.2)) := by
  simp [parseQuoted]

/-- A closing quote followed by more input ends the field there. -/
theorem parseQuoted_close (c2 : Char) (l : List Char) (hc : ¬c2 = '"') :
    parseQuoted ('"' :: c2 :: l) = some ([], c2 :: l) := by
  simp [parseQuoted, hc]

/-- A closing quote at the end of input ends the field and the input. -/
theorem parseQuoted_end : parseQuoted ['"'] = some ([], []) := by
  simp [parseQuoted]

/-- The quoted-field parser consumes exactly a doubled body and its
closing quote and leaves the remainder intact. -/
theorem parseQuoted_spec (f : List Char) :
    ∀ rest : List Char, rest.head? ≠ some '"' →
      parseQuoted (dqChars f ++ ('"' :: rest)) = some (f, rest) := by
  induction f with
  | nil =>
    intro rest hrest
    cases rest with
    | nil => simpa [dqChars] using parseQuoted_end
    | cons c2 r2 =>
      have hc2 : ¬(c2 = '"') := fun h => hrest (by simp [h])
      simpa [dqChars] using parseQuoted_close c2 r2 hc2
  | cons c f ih =>
    intro rest hrest
    by_cases hc : c = '"'
    · subst hc
      have hdq : dqChars ('"' :: f) = '"' :: '"' :: dqChars f := by
        rw [dqChars, if_pos rfl]
      rw [hdq, List.cons_append, List.cons_append, parseQuoted_qq, ih rest hrest]
      rfl
    · have hdq : dqChars (c :: f) = c :: dqChars f := by
        rw [dqChars, if_neg hc]
      rw [hdq, List.cons_append, parseQuoted_cons_ne c _ hc, ih rest hrest]
      rfl

/-- The raw-field parser consumes exactly a separator-free field and
stops at the separator. -/
theorem parseRaw_spec (f : List Char) (hf : ∀ c ∈ f, ¬(c = ',' ∨ c = '\n')) :
    ∀ rest, sepStart rest = true → parseRaw (f ++ rest) = (f, rest) := by
  induction f with
  | nil =>
    intro rest hrest
    cases rest with
    | nil => simp [parseRaw]
    | cons c r =>
      have hc : c = ',' ∨ c = '\n' := by simpa [sepStart] using hrest
      simp [parseRaw, hc]
  | cons a f ih =>
    intro rest hrest
    have ha : ¬(a = ',' ∨ a = '\n') := hf a (by simp)
    have hrec := ih (fun c hc => hf c (List.mem_cons_of_mem a hc)) rest hrest
    simp [parseRaw, ha, hrec]

/-- The field parser inverts the field serializer, whatever the field
contents, provided the remainder starts with a separator or ends. -/
theorem parseField_spec (f rest : List Char) (hrest : sepStart rest = true) :
    parseField (escField f ++ rest) = some (f, rest) := by
  by_cases hq : needsQuote f = true
  · have hrest2 : rest.head? ≠ some '"' := by
      cases rest with
      | nil => simp
      | cons c r =>
        have hc : c = ',' ∨ c = '\n' := by simpa [sepStart] using hrest
        rcases hc with rfl | rfl <;> simp
    have h1 := parseQuoted_spec f rest hrest2
    rw [escField, if_pos hq]
    have hshape : ('"' :: (dqChars f ++ ['"'])) ++ rest
        = '"' :: (dqChars f ++ ('"' :: rest)) := by simp
    rw [hshape]
    simp [parseField, h1]
  · have hq2 : needsQuote f = false := by simpa using hq
    have hf := needsQuote_false hq2
    rw [escField, if_neg (by simp [hq2])]
    cases f with
    | nil =>
      cases rest with
      | nil => simp [parseField]
      | cons c r =>
        have hcr : c = ',' ∨ c = '\n' := by simpa [sepStart] using hrest
        have hc : ¬(c = '"') := by rcases hcr with rfl | rfl <;> simp
        simp [parseField, hc, parseRaw, hcr]
    | cons a f2 =>
      have ha : ¬(a = '"') := fun h =>
        hf a (by simp) (Or.inr (Or.inl h))
      have hraw := parseRaw_spec (a :: f2)
        (fun c hc hor => hf c hc (by
          rcases hor with rfl | rfl
          · exact Or.inl rfl
          · exact Or.inr (Or.inr (Or.inl rfl))))
        rest hrest
      rw [List.cons_append] at hraw ⊢
      simp [parseField, ha, hraw]

/-- The record parser inverts the row serializer, leaving the rest of
the table intact, when given fuel for its fields. -/
theorem parseRecordAux_spec :
    ∀ (fields : List (List Char)) (rest : List Char) (fuel : Nat),
      fields ≠ [] → fields.length ≤ fuel →
      parseRecordAux fuel (joinComma (fields.map escField) ++ '\n' :: rest)
        = some (fields, rest) := by
  intro fields
  induction fields with
  | nil => intro rest fuel h _; exact absurd rfl h
  | cons f fs ih =>
    intro rest fuel _ hlen
    have hfu : 1 ≤ fuel := le_trans (by simp) hlen
    obtain ⟨fu, rfl⟩ : ∃ fu, fuel = fu + 1 := ⟨fuel - 1, by omega⟩
    cases fs with
    | nil =>
      have h1 := parseField_spec f ('\n' :: rest) (by simp [sepStart])
      simp only [List.map_cons, List.map_nil, joinComma]
      simp [parseRecordAux, h1, show ¬(('\n' : Char) = ',') from by decide]
    | cons g gs =>
      have h1 := parseField_spec f
        (',' :: (joinComma (escField g :: gs.map escField) ++ '\n' :: rest))
        (by simp [sepStart])
      have hshape : joinComma ((f :: g :: gs).map escField) ++ '\n' :: rest
          = escField f
            ++ (',' :: (joinComma (escField g :: gs.map escField) ++ '\n' :: rest)) := by
        simp [joinComma]
      rw [hshape]
      have hlen2 : (g :: gs).length ≤ fu := by
        simp only [List.length_cons] at hlen ⊢
        omega
      have hrec := ih rest fu (by simp) hlen2
      simp only [List.map_cons] at hrec
      simp [parseRecordAux, h1, hrec]

/-- Comma-joining `n` lists yields at least `n - 1` characters. -/
theorem joinComma_length : ∀ ls : List (List Char),
    ls.length ≤ (joinComma ls).length + 1 := by
  intro ls
  induction ls with
  | nil => simp [joinComma]
  | cons f rest ih =>
    cases rest with
    | nil => simp [joinComma]
    | cons g gs =>
      simp only [joinComma, List.length_append, List.length_cons] at *
      omega

/-- Each serialized row contributes at least its line terminator. -/
theorem writeTable_length : ∀ rows : List (List (List Char)),
    rows.length ≤ (writeTable rows).length := by
  intro rows
  induction rows with
  | nil => simp [writeTable]
  | cons r rs ih =>
    simp only [writeTable, writeRow, List.length_append, List.length_cons] at *
    omega

/-- Unfolding the table parser on a nonempty input. -/
theorem parseTableAux_cons (fuel : Nat) (l : List Char) (hl : l ≠ []) :
    parseTableAux (fuel + 1) l =
      match parseRecordAux (l.length + 1) l with
      | none => none
      | some (r, rest2) => (parseTableAux fuel rest2).map (fun rs => r :: rs) := by
  cases l with
  | nil => exact absurd rfl hl
  | cons c rest => rfl

/-- The table parser inverts the table serializer when given fuel for
its rows and every row has at least one field. -/
theorem parseTableAux_spec :
    ∀ (rows : List (List (List Char))) (fuel : Nat),
      (∀ r ∈ rows, r ≠ []) → rows.length ≤ fuel →
      parseTableAux fuel (writeTable rows) = some rows := by
  intro rows
  induction rows with
  | nil =>
    intro fuel _ _
    cases fuel <;> simp [writeTable, parseTableAux]
  | cons r rs ih =>
    intro fuel hne hlen
    have hfu : 1 ≤ fuel := le_trans (by simp) hlen
    obtain ⟨fu, rfl⟩ : ∃ fu, fuel = fu + 1 := ⟨fuel - 1, by omega⟩
    have hshape : writeTable (r :: rs)
        = joinComma (r.map escField) ++ '\n' :: writeTable rs := by
      simp [writeTable, writeRow]
    have hnil : writeTable (r :: rs) ≠ [] := by
      rw [hshape]
      simp
    rw [hshape] at hnil ⊢
    rw [parseTableAux_cons fu _ hnil]
    have hflen : r.length ≤ (joinComma (r.map escField) ++ '\n' :: writeTable rs).length + 1 := by
      have h1 := joinComma_length (r.map escField)
      simp only [List.length_map, List.length_append, List.length_cons] at h1 ⊢
      omega
    have hrec := parseRecordAux_spec r (writeTable rs)
      ((joinComma (r.map escField) ++ '\n' :: writeTable rs).length + 1)
      (hne r (by simp)) hflen
    rw [hrec]
    have hihlen : rs.length ≤ fu := by
      simp only [List.length_cons] at hlen
      omega
    have hih := ih fu (fun x hx => hne x (List.mem_cons_of_mem r hx)) hihlen
    simp [hih]

/-- Rebuilding the serialized field lists recovers each record. -/
theorem rowsToRecords_map (log : List LogRecord) :
    rowsToRecords (log.map recordFields) = some log := by
  induction log with
  | nil => rfl
  | cons r rs ih =>
    simp [rowsToRecords, rowToRecord, recordFields, ih]

/-- C8: serializing the export log to the comma-separated table with
header `session_id,model,timestamp,role,message` and parsing that table
back recovers the same record tuples in the same order, for all
messages — commas, quotes, line breaks and non-ASCII text included. -/
theorem c8_csv_roundtrip (log : List LogRecord) :
    parseLog (writeCsv log) = some log := by
  have htab : parseTable (writeCsv log)
      = some (headerFields :: log.map recordFields) := by
    have hdat : (writeCsv log).data
        = writeTable (headerFields :: log.map recordFields) := rfl
    rw [parseTable, hdat]
    apply parseTableAux_spec
    · intro r hr
      rcases List.mem_cons.mp hr with rfl | hmem
      · simp [headerFields]
      · obtain ⟨x, _, rfl⟩ := List.mem_map.mp hmem
        simp [recordFields]
    · exact le_trans (writeTable_length _) (Nat.le_succ _)
  rw [parseLog, htab]
  simp [rowsToRecords_map]
